import Mathlib

/-!
Shallow embedding of the `gym-cyber_attack` simulation engine
(`gym_cyber_attack/envs/cyber_attack_env.py` and
`gym_cyber_attack/envs/cyber_attack_spaces.py`).

Conventions of the embedding:
* Python dicts keyed by machine addresses become association lists
  `List (Address × _)`; the generated address lists are duplicate-free, and
  lookup takes the first matching entry, exactly as a dict would.
* Machine values and rewards are small exact floats (`9000.0`, `-10.0`, ...);
  they are embedded as `Int`.
* NumPy's global random generator is modelled abstractly by an `RNG`
  structure: a deterministic seeding function and a deterministic
  `choice` function that, from a generator state, picks an index below the
  given bound and advances the state.  `np.random.seed(1)` overwrites the
  ambient generator state, which the model threads explicitly.
* Aliasing of the belief state (which Python return sites hand out the
  internal object and which hand out a `copy.deepcopy`) is modelled in a
  second layer (`EngineH`) by an explicit store of belief-state values in
  which locations play the role of Python object identities.
* `AddressSpace.contains` is fallible in Python (it can raise `IndexError`);
  its model returns `Option Bool`, with `none` marking the raised exception.
-/

namespace CyberAttack

/-- Service knowledge states (cyber_attack_env.py lines 13-16). -/
def UNKNOWN : Nat := 0

/-- Service state: known present. -/
def PRESENT : Nat := 1

/-- Service state: known absent. -/
def ABSENT : Nat := 2

/-- Action type of a scan (cyber_attack_env.py line 19). -/
def SCAN : Nat := 0

/-- Value of a sensitive (subnet-1) machine, `R_SENSITIVE = 9000.0`. -/
def R_SENSITIVE : Int := 9000

/-- Value of a user (subnet-2) machine, `R_USER = 5000.0`. -/
def R_USER : Int := 5000

/-- Cost of an exploit action, `COST_EXPLOIT = 10.0`. -/
def COST_EXPLOIT : Int := 10

/-- Cost of a scan action, `COST_SCAN = 10.0`. -/
def COST_SCAN : Int := 10

/-- Machine address: a `(subnet, id)` pair. -/
abbrev Address := Nat × Nat

/-- Belief record for one machine, the value part of the observation dict
produced by `CAObservationSpace.gen_initial_state` and mutated by the engine.
Python stores service knowledge as small ints (0 unknown / 1 present /
2 absent); `compromised`, `sensitive` and `reachable` are booleans (the code
writes the int `1` for a freshly compromised machine, which is boolean-truthy
and modelled as `true`). -/
structure BeliefRecord where
  services : List Nat
  compromised : Bool
  sensitive : Bool
  reachable : Bool
deriving DecidableEq, Repr

instance : Inhabited BeliefRecord := ⟨⟨[], false, false, false⟩⟩

/-- Ground-truth data for one machine: its true service vector and value
(cyber_attack_env.py line 77). -/
structure Machine where
  services : List Bool
  value : Int
deriving DecidableEq, Repr

instance : Inhabited Machine := ⟨⟨[], 0⟩⟩

/-- Belief state: ordered mapping from address to belief record
(an `OrderedDict` in Python). -/
abbrev BeliefState := List (Address × BeliefRecord)

/-- Dict access `d[a]` on an address-keyed association list.  The generated
dicts never miss a key on the executions the theorems quantify over; absent
keys (a `KeyError` in Python) fall back to `default`. -/
def alookup {α : Type} [Inhabited α] : List (Address × α) → Address → α
  | [], _ => default
  | (b, r) :: rest, a => if a = b then r else alookup rest a

/-- In-place update `d[a] = f d[a]` of an address-keyed association list:
the entry keyed `a` is rewritten, all others are untouched. -/
def aupdate {α : Type} (s : List (Address × α)) (a : Address) (f : α → α) :
    List (Address × α) :=
  s.map fun p => (p.1, if p.1 = a then f p.2 else p.2)

/-- Function `permutations(n)` (cyber_attack_env.py lines 251-265): the list
of all `2^n` boolean vectors of length `n`, built by prepending `True` then
`False` to each vector of length `n-1`; `n ≤ 0` yields the empty list. -/
def permutations : Nat → List (List Bool)
  | 0 => []
  | 1 => [[true], [false]]
  | n + 2 => (permutations (n + 1)).flatMap fun p => [true :: p, false :: p]

/-- Candidate service configurations `permutations(nS)[:-1]`
(cyber_attack_env.py line 64). -/
def configsList (nS : Nat) : List (List Bool) := (permutations nS).dropLast

/-- Python's lexicographic `<=` on `(subnet, id)` tuples. -/
def addrLe (a b : Address) : Bool :=
  decide (a.1 < b.1 ∨ (a.1 = b.1 ∧ a.2 ≤ b.2))

/-- Insert an address into a lexicographically sorted list. -/
def insertAddr (x : Address) : List Address → List Address
  | [] => [x]
  | y :: ys => if addrLe x y then x :: y :: ys else y :: insertAddr x ys

/-- Sort addresses lexicographically.  Python uses `list.sort()`; since the
order on fully compared `(subnet, id)` tuples is total and antisymmetric, any
comparison sort produces the same list, so a structural insertion sort is an
exact model. -/
def sortAddrs : List Address → List Address
  | [] => []
  | x :: xs => insertAddr x (sortAddrs xs)

/-- Loop body of `AddressSpace.generate_address_space`
(cyber_attack_spaces.py lines 44-55): machine index 0 goes to subnet 0,
indices `≡ 1 (mod 10)` to subnet 1 with a running id, all others to subnet 2
with a running id.  Callers assert `2 < nM` before reaching this loop. -/
def genLoop : Nat → Nat → Nat → Nat → List Address
  | 0, _, _, _ => []
  | fuel + 1, m, s_id, u_id =>
    if m = 0 then (0, 0) :: genLoop fuel (m + 1) s_id u_id
    else if m % 10 = 1 then (1, s_id) :: genLoop fuel (m + 1) (s_id + 1) u_id
    else (2, u_id) :: genLoop fuel (m + 1) s_id (u_id + 1)

/-- Static method `AddressSpace.generate_address_space(nM)`
(cyber_attack_spaces.py lines 37-57): run the loop for the `nM` iterations of
`for m in range(nM)` and sort the resulting address list. -/
def generate_address_space (nM : Nat) : List Address :=
  sortAddrs (genLoop nM 0 0 0)

/-- Abstract model of NumPy's seeded global generator: `seedFn` maps a seed
to a generator state (`np.random.seed`), `choiceFn n st` draws an index below
`n` (`np.random.choice(n)`) and advances the state.  Both are deterministic
functions, which is NumPy's documented contract for a seeded generator. -/
structure RNG where
  seedFn : Nat → Nat
  choiceFn : Nat → Nat → Nat × Nat
  choice_lt : ∀ n s, 0 < n → (choiceFn n s).1 < n

/-- Concrete executable generator instance used for the concrete scenarios. -/
def rng0 : RNG where
  seedFn := id
  choiceFn := fun n s => (s % n, s + 1)
  choice_lt := fun _ s h => Nat.mod_lt s h

/-- Per-address loop of `CyberAttackEnv._construct_network`
(cyber_attack_env.py lines 65-77): draw a configuration index for each
address, attach the machine's value, and record value-bearing addresses in
`sensitive_machines`, threading the generator state.  Returns
`(network, sensitive_machines, final generator state)`. -/
def constructLoop (rng : RNG) (configs : List (List Bool)) :
    List Address → Nat → List (Address × Machine) × List Address × Nat
  | [], st => ([], [], st)
  | m :: rest, st =>
    let c := rng.choiceFn configs.length st
    let m_cfg := configs.getD c.1 []
    let m_value : Int :=
      if m.2 % 10 = 0 then
        if m.1 = 1 then R_SENSITIVE else if m.1 = 2 then R_USER else 0
      else 0
    let r := constructLoop rng configs rest c.2
    ((m, ⟨m_cfg, m_value⟩) :: r.1,
     (if m.2 % 10 = 0 ∧ (m.1 = 1 ∨ m.1 = 2) then m :: r.2.1 else r.2.1),
     r.2.2)

/-- Method `CyberAttackEnv._construct_network` (cyber_attack_env.py lines
45-77).  `g0` is the ambient global generator state before construction;
`np.random.seed(1)` (line 60) overwrites it with `seedFn 1`, which is why the
result cannot depend on `g0`. -/
def construct_network (rng : RNG) (nM nS : Nat) (g0 : Nat) :
    List (Address × Machine) × List Address × Nat :=
  let _ := g0
  let st := rng.seedFn 1
  constructLoop rng (configsList nS) (generate_address_space nM) st

/-- Method `CAObservationSpace.gen_initial_state` (cyber_attack_spaces.py
lines 139-157): all services unknown, nothing compromised, subnet-0 machines
reachable and non-sensitive, other machines unreachable and sensitive iff
their id is a multiple of 10. -/
def gen_initial_state (nM nS : Nat) : BeliefState :=
  (generate_address_space nM).map fun m =>
    let services := List.replicate nS UNKNOWN
    if m.1 = 0 then
      (m, ⟨services, false, false, true⟩)
    else
      (m, ⟨services, false, decide (m.2 % 10 = 0), false⟩)

/-- Engine state: the fields of `CyberAttackEnv` the transition logic reads
(`network`, `sensitive_machines`, `current_state`, and the construction
parameters). -/
structure Engine where
  nM : Nat
  nS : Nat
  network : List (Address × Machine)
  sensitive_machines : List Address
  current_state : BeliefState
deriving DecidableEq, Repr

/-- Constructor `CyberAttackEnv.__init__(nM, nS)` (lines 36-43): build the
network, then `reset()` installs a fresh copy of the initial observation. -/
def mkEngine (rng : RNG) (nM nS : Nat) (g0 : Nat) : Engine :=
  let c := construct_network rng nM nS g0
  { nM := nM, nS := nS, network := c.1, sensitive_machines := c.2.1,
    current_state := gen_initial_state nM nS }

/-- Action dict `{"target": (subnet, id), "action": k}`; `k = 0` is a scan,
`k > 0` exploits service `k - 1`. -/
structure CAAction where
  target : Address
  action : Nat
deriving DecidableEq, Repr

/-- Method `CyberAttackEnv._take_action` (lines 117-141): a scan always
succeeds and reveals the true services; an exploit succeeds iff the attacked
service is truly present, revealing the true services and gaining the
machine's value on success, and revealing nothing on failure. -/
def take_action (network : List (Address × Machine)) (a : CAAction) :
    Bool × Int × List Bool :=
  let target_services := (alookup network a.target).services
  if a.action = SCAN then (true, 0, target_services)
  else if target_services.getD (a.action - 1) false then
    (true, (alookup network a.target).value, target_services)
  else (false, 0, [])

/-- Loop `for i, s in enumerate(services): target_state[i] = PRESENT if s
else ABSENT` (lines 161-162): overwrite the belief tri-states index by index
with the revealed truth.  Both lists have length `nS` on every engine run
(Python would raise `IndexError` if the truth were longer). -/
def overwriteServices : List Nat → List Bool → List Nat
  | bs, [] => bs
  | [], _ :: _ => []
  | _ :: bs, s :: ss => (if s then PRESENT else ABSENT) :: overwriteServices bs ss

/-- Method `CyberAttackEnv._update_reachable` (lines 167-181): compromising a
subnet-0 machine makes every machine reachable; otherwise nothing changes. -/
def update_reachable (s : BeliefState) (target : Address) : BeliefState :=
  if target.1 = 0 then s.map (fun p => (p.1, { p.2 with reachable := true }))
  else s

/-- Method `CyberAttackEnv._update_state` (lines 143-165): on failure mark
only the attacked service absent; on success overwrite all the target's
service tri-states with the truth and, for an exploit, mark the target
compromised and propagate reachability. -/
def update_state (s : BeliefState) (a : CAAction) (success : Bool)
    (services : List Bool) : BeliefState :=
  if !success then
    aupdate s a.target fun r =>
      { r with services := r.services.set (a.action - 1) ABSENT }
  else
    let s' := aupdate s a.target fun r =>
      { r with services := overwriteServices r.services services }
    if a.action ≠ SCAN then
      update_reachable
        (aupdate s' a.target fun r => { r with compromised := true }) a.target
    else s'

/-- Method `CyberAttackEnv.is_goal` (lines 183-196): every sensitive machine
is compromised in the current belief state. -/
def is_goal (sensitive_machines : List Address) (s : BeliefState) : Bool :=
  sensitive_machines.all fun m => (alookup s m).compromised

/-- Info dictionaries; the code only ever returns the empty dict. -/
abbrev Info := List (String × String)

/-- Result of one `step` call: the post-call engine, the returned observation
value, the reward, the done flag and the info dict. -/
structure StepResult where
  engine : Engine
  obs : BeliefState
  reward : Int
  done : Bool
  info : Info
deriving DecidableEq, Repr

/-- Method `CyberAttackEnv.step` (lines 89-115), value level.  Targets that
are unreachable or already compromised take the no-mutation gate with reward
`-cost`; otherwise the action is resolved against ground truth, the belief
state updated, and `(observation, value - cost, is_goal, empty info)`
returned.  (Which return sites alias the internal state is modelled
separately by `stepH`.) -/
def step (e : Engine) (a : CAAction) : StepResult :=
  let action_cost : Int := if a.action = SCAN then COST_SCAN else COST_EXPLOIT
  let r := alookup e.current_state a.target
  if !r.reachable || r.compromised then
    ⟨e, e.current_state, 0 - action_cost, false, []⟩
  else
    let t := take_action e.network a
    let s' := update_state e.current_state a t.1 t.2.2
    ⟨{ e with current_state := s' }, s', t.2.1 - action_cost,
     is_goal e.sensitive_machines s', []⟩

/-- Method `CyberAttackEnv.reset` (lines 79-87), value level: install a fresh
copy of the initial observation and return it. -/
def reset (e : Engine) : Engine × BeliefState :=
  let s := gen_initial_state e.nM e.nS
  ({ e with current_state := s }, s)

/-- Run a sequence of actions, keeping the final engine. -/
def runActs (e : Engine) : List CAAction → Engine
  | [] => e
  | a :: rest => runActs (step e a).engine rest

/-- Run a sequence of actions, recording each step's `(reward, done)`. -/
def stepTrace (e : Engine) : List CAAction → List (Int × Bool)
  | [] => []
  | a :: rest =>
    let r := step e a
    (r.reward, r.done) :: stepTrace r.engine rest

/-! ### Aliasing layer

Python returns *object references*.  `reset` and the precondition-gate branch
of `step` execute `return self.current_state` — the caller receives the very
object the engine keeps mutating — while the mutating branch of `step`
executes `return copy.deepcopy(self.current_state), ...`.  `EngineH` makes
this observable: belief-state values live in a store (`heap`), a location in
the store plays the role of a Python object identity, `e.cur` is the location
the engine's `self.current_state` reference points to, and each API call
returns the *location* of the observation it hands out. -/

/-- Engine with an explicit store of belief-state objects. -/
structure EngineH where
  nM : Nat
  nS : Nat
  network : List (Address × Machine)
  sensitive_machines : List Address
  heap : List BeliefState
  cur : Nat
deriving DecidableEq, Repr

/-- Dereference the engine's `self.current_state`. -/
def curState (e : EngineH) : BeliefState := e.heap.getD e.cur []

/-- External mutation of the object at location `loc` (what a caller does to
a value it was handed). -/
def mutateAt (e : EngineH) (loc : Nat) (v : BeliefState) : EngineH :=
  { e with heap := e.heap.set loc v }

/-- Method `CyberAttackEnv.reset` (lines 79-87), aliasing level:
`self.current_state = self.observation_space.get_initial_state()` allocates a
fresh copy of the initial template, and `return self.current_state` returns
that same object — the engine and the caller share one location. -/
def resetH (e : EngineH) : EngineH × Nat :=
  let loc := e.heap.length
  ({ e with heap := e.heap ++ [gen_initial_state e.nM e.nS], cur := loc }, loc)

/-- Constructor at the aliasing level; `__init__` ends in `self.reset()`
(line 43), whose return value it discards. -/
def mkEngineH (rng : RNG) (nM nS : Nat) (g0 : Nat) : EngineH × Nat :=
  let c := construct_network rng nM nS g0
  resetH { nM := nM, nS := nS, network := c.1, sensitive_machines := c.2.1,
           heap := [], cur := 0 }

/-- Result of one aliasing-level `step`: `obs` is the location of the
returned observation object. -/
structure StepResultH where
  engine : EngineH
  obs : Nat
  reward : Int
  done : Bool
deriving DecidableEq, Repr

/-- Method `CyberAttackEnv.step` (lines 89-115), aliasing level.  The gate
branch (line 109) returns `self.current_state` itself; the mutating branch
updates the engine's belief-state object in place and returns a fresh
`copy.deepcopy` of it (line 115), allocated at a new location. -/
def stepH (e : EngineH) (a : CAAction) : StepResultH :=
  let action_cost : Int := if a.action = SCAN then COST_SCAN else COST_EXPLOIT
  let s := curState e
  let r := alookup s a.target
  if !r.reachable || r.compromised then
    ⟨e, e.cur, 0 - action_cost, false⟩
  else
    let t := take_action e.network a
    let s' := update_state s a t.1 t.2.2
    let heap' := e.heap.set e.cur s'
    ⟨{ e with heap := heap' ++ [s'] }, heap'.length, t.2.1 - action_cost,
     is_goal e.sensitive_machines s'⟩

/-! ### AddressSpace.contains -/

/-- Python values that may be passed to `AddressSpace.contains`: tuples of
ints, lists of ints (promoted to tuples), or anything that is neither. -/
inductive PyVal where
  | tupleOf (l : List Nat)
  | listOf (l : List Nat)
  | other
deriving DecidableEq, Repr

/-- Python's lexicographic `<` on `(subnet, id)` tuples. -/
def addrLt (a b : Address) : Bool :=
  decide (a.1 < b.1 ∨ (a.1 = b.1 ∧ a.2 < b.2))

/-- Loop of `bisect.bisect_left(a, x)`: binary search for the leftmost
insertion point.  The interval `hi - lo` shrinks every iteration, so fuel
`a.length + 1 ≥ hi - lo + 1` never runs out. -/
def bisectLeftLoop (a : List Address) (x : Address) :
    Nat → Nat → Nat → Nat
  | 0, lo, _ => lo
  | fuel + 1, lo, hi =>
    if lo < hi then
      let mid := (lo + hi) / 2
      if addrLt (a.getD mid (0, 0)) x then bisectLeftLoop a x fuel (mid + 1) hi
      else bisectLeftLoop a x fuel lo mid
    else lo

/-- Library function `bisect.bisect_left` on the sorted address list. -/
def bisect_left (a : List Address) (x : Address) : Nat :=
  bisectLeftLoop a x (a.length + 1) 0 a.length

/-- Method `AddressSpace.contains` (cyber_attack_spaces.py lines 65-72).
Lists are promoted to tuples; non-tuples and tuples of the wrong length
short-circuit to `False`; otherwise the code evaluates
`self.space[bisect_left(self.space, x)] == x`, and the subscript raises
`IndexError` (modelled as `none`) whenever `bisect_left` returns
`len(self.space)`, i.e. whenever `x` is greater than every address. -/
def contains (space : List Address) (x : PyVal) : Option Bool :=
  let xt : Option (List Nat) :=
    match x with
    | .tupleOf l => some l
    | .listOf l => some l
    | .other => none
  match xt with
  | none => some false
  | some l =>
    if l.length = 2 then
      let t : Address := (l.getD 0 0, l.getD 1 0)
      match space.get? (bisect_left space t) with
      | some e => some (decide (e = t))
      | none => none
    else some false

/-! ### Concrete instances used by the scenario claims -/

/-- Engine with `nM = 4`, `nS = 1` (the configuration of the repository's
test-suite scenarios). -/
def E41 : Engine := mkEngine rng0 4 1 0

/-- Aliasing-level engine with `nM = 4`, `nS = 1`. -/
def E41H : EngineH := (mkEngineH rng0 4 1 0).1

/-- Engine with `nM = 4`, `nS = 2`; under `rng0` the exposed machine `(0, 0)`
draws the configuration `[false, true]`, so exploiting its service 0 fails. -/
def E42 : Engine := mkEngine rng0 4 2 0

/-- Exploit action (`kind 1`) against a target. -/
def exploit1 (t : Address) : CAAction := ⟨t, 1⟩

/-! ### Helper lemmas about association lists and list updates -/

theorem alookup_not_mem {α : Type} [Inhabited α] (s : List (Address × α))
    (b : Address) (h : b ∉ s.map Prod.fst) : alookup s b = default := by
  induction s with
  | nil => rfl
  | cons p rest ih =>
    simp only [List.map_cons, List.mem_cons] at h
    push_neg at h
    obtain ⟨p1, p2⟩ := p
    simp only [alookup, if_neg h.1]
    exact ih h.2

theorem alookup_aupdate_self {α : Type} [Inhabited α] (s : List (Address × α))
    (a : Address) (f : α → α) (h : a ∈ s.map Prod.fst) :
    alookup (aupdate s a f) a = f (alookup s a) := by
  induction s with
  | nil => simp at h
  | cons p rest ih =>
    obtain ⟨p1, p2⟩ := p
    simp only [aupdate, List.map_cons, alookup]
    by_cases hab : a = p1
    · simp [alookup, hab]
    · simp only [List.map_cons, List.mem_cons] at h
      rcases h with h | h
      · exact absurd h hab
      · simp only [alookup, if_neg hab]
        exact ih h

theorem alookup_aupdate_ne {α : Type} [Inhabited α] (s : List (Address × α))
    (a : Address) (f : α → α) (b : Address) (h : b ≠ a) :
    alookup (aupdate s a f) b = alookup s b := by
  induction s with
  | nil => rfl
  | cons p rest ih =>
    obtain ⟨p1, p2⟩ := p
    simp only [aupdate, List.map_cons, alookup]
    by_cases hb : b = p1
    · subst hb
      simp [if_neg h]
    · simp only [if_neg hb]
      exact ih

theorem alookup_aupdate_proj {α β : Type} [Inhabited α] (π : α → β)
    (s : List (Address × α)) (a : Address) (f : α → α) (b : Address)
    (hf : ∀ r, π (f r) = π r) :
    π (alookup (aupdate s a f) b) = π (alookup s b) := by
  induction s with
  | nil => rfl
  | cons p rest ih =>
    obtain ⟨p1, p2⟩ := p
    simp only [aupdate, List.map_cons, alookup]
    by_cases hb : b = p1
    · by_cases hp : p1 = a <;> simp [hb, hp, hf]
    · simp only [if_neg hb]
      exact ih

theorem alookup_aupdate_mono {α : Type} [Inhabited α] (π : α → Bool)
    (s : List (Address × α)) (a : Address) (f : α → α) (b : Address)
    (hf : ∀ r, π r = true → π (f r) = true) :
    π (alookup s b) = true → π (alookup (aupdate s a f) b) = true := by
  induction s with
  | nil => exact id
  | cons p rest ih =>
    obtain ⟨p1, p2⟩ := p
    simp only [aupdate, List.map_cons, alookup]
    by_cases hb : b = p1
    · by_cases hp : p1 = a <;> simp [hb, hp, hf]
      exact hf p2
    · simp only [if_neg hb]
      exact ih

theorem alookup_map_proj {α β : Type} [Inhabited α] (π : α → β)
    (g : α → α) (s : List (Address × α)) (b : Address)
    (hg : ∀ r, π (g r) = π r) :
    π (alookup (s.map fun p => (p.1, g p.2)) b) = π (alookup s b) := by
  induction s with
  | nil => rfl
  | cons p rest ih =>
    obtain ⟨p1, p2⟩ := p
    by_cases hb : b = p1
    · simp [alookup, hb, hg]
    · simpa [alookup, hb] using ih

theorem alookup_map_mono {α : Type} [Inhabited α] (π : α → Bool)
    (g : α → α) (s : List (Address × α)) (b : Address)
    (hg : ∀ r, π r = true → π (g r) = true) :
    π (alookup s b) = true → π (alookup (s.map fun p => (p.1, g p.2)) b) = true := by
  induction s with
  | nil => exact id
  | cons p rest ih =>
    obtain ⟨p1, p2⟩ := p
    by_cases hb : b = p1
    · simp only [List.map_cons, alookup, hb, if_pos rfl]
      exact hg p2
    · simpa [alookup, hb] using ih

theorem mem_of_reachable (s : BeliefState) (b : Address)
    (h : (alookup s b).reachable = true) : b ∈ s.map Prod.fst := by
  by_contra hb
  rw [alookup_not_mem s b hb] at h
  exact absurd h (by decide)

theorem getD_set_ne {α : Type} (l : List α) (i j : Nat) (v d : α)
    (h : i ≠ j) : (l.set i v).getD j d = l.getD j d := by
  simp [List.getD, List.getElem?_set_ne h]

theorem getD_mem {α : Type} (l : List α) (n : Nat) (d : α)
    (h : n < l.length) : l.getD n d ∈ l := by
  rw [List.getD_eq_getElem _ _ h]
  exact List.getElem_mem h

theorem overwriteServices_getD (ss : List Bool) (bs : List Nat) (i : Nat)
    (hs : i < ss.length) (hb : i < bs.length) :
    (overwriteServices bs ss).getD i UNKNOWN =
      (if ss.getD i false then PRESENT else ABSENT) := by
  induction ss generalizing bs i with
  | nil => simp at hs
  | cons s rest ih =>
    cases bs with
    | nil => simp at hb
    | cons b bs' =>
      cases i with
      | zero => simp [overwriteServices]
      | succ i' =>
        simp only [overwriteServices, List.getD_cons_succ]
        exact ih bs' i' (by simpa using hs) (by simpa using hb)

/-! ### Helper lemmas about `permutations` and the candidate configurations -/

theorem permutations_concat : ∀ n : Nat, 1 ≤ n →
    ∃ l, permutations n = l ++ [List.replicate n false]
  | 0, h => absurd h (by decide)
  | 1, _ => ⟨[[true]], rfl⟩
  | n + 2, _ => by
    obtain ⟨l, hl⟩ := permutations_concat (n + 1) (by omega)
    refine ⟨(l.flatMap fun p => [true :: p, false :: p]) ++
      [true :: List.replicate (n + 1) false], ?_⟩
    show (permutations (n + 1)).flatMap _ = _
    rw [hl, List.flatMap_append]
    simp [List.flatMap_cons, List.replicate_succ]

theorem mem_flatMap_pair (l : List (List Bool)) (v : List Bool) :
    (v ∈ l.flatMap fun p => [true :: p, false :: p]) ↔
      ∃ q ∈ l, v = true :: q ∨ v = false :: q := by
  simp only [List.mem_flatMap, List.mem_cons, List.mem_singleton,
    List.not_mem_nil, or_false]

theorem configsList_step (n : Nat) (l : List (List Bool))
    (hl : permutations (n + 1) = l ++ [List.replicate (n + 1) false]) :
    configsList (n + 1) = l ∧
    configsList (n + 2) = (l.flatMap fun p => [true :: p, false :: p]) ++
      [true :: List.replicate (n + 1) false] := by
  constructor
  · rw [configsList, hl]
    simp
  · show ((permutations (n + 1)).flatMap _).dropLast = _
    rw [hl, List.flatMap_append]
    simp only [List.flatMap_cons, List.flatMap_nil, List.append_nil]
    rw [show (l.flatMap fun p => [true :: p, false :: p]) ++
        [true :: List.replicate (n + 1) false, false :: List.replicate (n + 1) false] =
        ((l.flatMap fun p => [true :: p, false :: p]) ++
          [true :: List.replicate (n + 1) false]) ++
          [false :: List.replicate (n + 1) false] by simp]
    simp

theorem mem_configsList : ∀ n : Nat, 1 ≤ n → ∀ v : List Bool,
    (v ∈ configsList n ↔ v.length = n ∧ v ≠ List.replicate n false)
  | 0, h, _ => absurd h (by decide)
  | 1, _, v => by
    constructor
    · intro hv
      have : v = [true] := by
        simpa [configsList, permutations] using hv
      subst this
      exact ⟨rfl, by decide⟩
    · rintro ⟨hlen, hne⟩
      match v, hlen with
      | [b], _ =>
        cases b
        · exact absurd rfl hne
        · simp [configsList, permutations]
  | n + 2, _, v => by
    obtain ⟨l, hl⟩ := permutations_concat (n + 1) (by omega)
    obtain ⟨h1, h2⟩ := configsList_step n l hl
    have ih : ∀ w, w ∈ l ↔ (w.length = n + 1 ∧ w ≠ List.replicate (n + 1) false) := by
      intro w
      rw [← h1]
      exact mem_configsList (n + 1) (by omega) w
    rw [h2, List.mem_append, mem_flatMap_pair]
    constructor
    · rintro (⟨q, hq, (rfl | rfl)⟩ | hv)
      · obtain ⟨hqlen, _⟩ := (ih q).1 hq
        exact ⟨by simp [hqlen], by simp [List.replicate_succ]⟩
      · obtain ⟨hqlen, hqne⟩ := (ih q).1 hq
        refine ⟨by simp [hqlen], ?_⟩
        simpa [List.replicate_succ] using hqne
      · simp only [List.mem_singleton] at hv
        subst hv
        exact ⟨by simp, by simp [List.replicate_succ]⟩
    · rintro ⟨hlen, hne⟩
      match v with
      | b :: q =>
        have hqlen : q.length = n + 1 := by simpa using hlen
        by_cases hq : q = List.replicate (n + 1) false
        · subst hq
          cases b
          · exact absurd (by simp [List.replicate_succ]) hne
          · right
            simp
        · left
          exact ⟨q, (ih q).2 ⟨hqlen, hq⟩, by cases b <;> simp⟩

theorem length_flatMap_pair (l : List (List Bool)) :
    (l.flatMap fun p => [true :: p, false :: p]).length = 2 * l.length := by
  induction l with
  | nil => rfl
  | cons h t ih =>
    simp only [List.flatMap_cons, List.length_append, List.length_cons,
      List.length_nil, ih, List.length_map] at *
    omega

theorem permutations_length : ∀ n : Nat, 1 ≤ n → (permutations n).length = 2 ^ n
  | 0, h => absurd h (by decide)
  | 1, _ => rfl
  | n + 2, _ => by
    show ((permutations (n + 1)).flatMap _).length = 2 ^ (n + 2)
    rw [length_flatMap_pair, permutations_length (n + 1) (by omega), pow_succ]
    ring

theorem configsList_length (n : Nat) (h : 1 ≤ n) :
    (configsList n).length = 2 ^ n - 1 := by
  unfold configsList
  rw [List.length_dropLast, permutations_length n h]

theorem configsList_pos (n : Nat) (h : 1 ≤ n) : 0 < (configsList n).length := by
  rw [configsList_length n h]
  have h2 : 2 ^ 1 ≤ 2 ^ n := Nat.pow_le_pow_right (by omega) h
  omega

/-! ### Helper lemmas about network construction -/

theorem constructLoop_services (rng : RNG) (configs : List (List Bool))
    (hc : 0 < configs.length) :
    ∀ (addrs : List Address) (st : Nat) (p : Address × Machine),
      p ∈ (constructLoop rng configs addrs st).1 → p.2.services ∈ configs
  | [], _, _, hp => by simp [constructLoop] at hp
  | m :: rest, st, p, hp => by
    simp only [constructLoop, List.mem_cons] at hp
    rcases hp with rfl | hp
    · exact getD_mem _ _ _ (rng.choice_lt _ _ hc)
    · exact constructLoop_services rng configs hc rest _ p hp

theorem constructLoop_sens (rng : RNG) (configs : List (List Bool)) :
    ∀ (addrs : List Address) (st : Nat),
      (constructLoop rng configs addrs st).2.1 =
        addrs.filter fun m => decide (m.2 % 10 = 0 ∧ (m.1 = 1 ∨ m.1 = 2))
  | [], _ => rfl
  | m :: rest, st => by
    simp only [constructLoop, List.filter_cons]
    by_cases hm : m.2 % 10 = 0 ∧ (m.1 = 1 ∨ m.1 = 2) <;>
      simp [hm, constructLoop_sens rng configs rest _]

/-! ### Helper lemmas about `step` -/

theorem step_gate (e : Engine) (a : CAAction)
    (h : (!(alookup e.current_state a.target).reachable ||
          (alookup e.current_state a.target).compromised) = true) :
    step e a = ⟨e, e.current_state,
      0 - (if a.action = SCAN then COST_SCAN else COST_EXPLOIT), false, []⟩ := by
  unfold step
  simp only [h, if_true]

theorem step_open (e : Engine) (a : CAAction)
    (hreach : (alookup e.current_state a.target).reachable = true)
    (hcomp : (alookup e.current_state a.target).compromised = false) :
    step e a =
      ⟨{ e with current_state := (update_state e.current_state a
           (take_action e.network a).1 (take_action e.network a).2.2) },
       update_state e.current_state a
         (take_action e.network a).1 (take_action e.network a).2.2,
       (take_action e.network a).2.1 -
         (if a.action = SCAN then COST_SCAN else COST_EXPLOIT),
       is_goal e.sensitive_machines (update_state e.current_state a
         (take_action e.network a).1 (take_action e.network a).2.2),
       []⟩ := by
  unfold step
  simp only [hreach, hcomp, Bool.not_true, Bool.false_or, Bool.false_eq_true,
    if_false]

theorem take_action_scan (network : List (Address × Machine)) (a : CAAction)
    (h : a.action = 0) :
    take_action network a = (true, 0, (alookup network a.target).services) := by
  unfold take_action
  simp [h, SCAN]

theorem take_action_exploit (network : List (Address × Machine)) (a : CAAction)
    (h : a.action ≠ 0) :
    take_action network a =
      (if (alookup network a.target).services.getD (a.action - 1) false
       then (true, (alookup network a.target).value,
             (alookup network a.target).services)
       else (false, 0, [])) := by
  unfold take_action
  simp only [SCAN, if_neg h]

theorem update_state_fail (s : BeliefState) (a : CAAction)
    (services : List Bool) :
    update_state s a false services =
      aupdate s a.target
        (fun r => { r with services := r.services.set (a.action - 1) ABSENT }) := rfl

theorem update_state_scan (s : BeliefState) (a : CAAction)
    (services : List Bool) (h : a.action = 0) :
    update_state s a true services =
      aupdate s a.target
        (fun r => { r with services := overwriteServices r.services services }) := by
  unfold update_state
  simp [h, SCAN]

theorem update_state_exploit (s : BeliefState) (a : CAAction)
    (services : List Bool) (h : a.action ≠ 0) :
    update_state s a true services =
      update_reachable
        (aupdate
          (aupdate s a.target
            (fun r => { r with services := overwriteServices r.services services }))
          a.target (fun r => { r with compromised := true }))
        a.target := by
  unfold update_state
  simp [h, SCAN]

theorem update_reachable_reachable_mono (s : BeliefState) (t b : Address)
    (h : (alookup s b).reachable = true) :
    (alookup (update_reachable s t) b).reachable = true := by
  unfold update_reachable
  split
  · exact alookup_map_mono (fun r => r.reachable)
      (fun r => { r with reachable := true }) s b (fun _ _ => rfl) h
  · exact h

theorem update_reachable_services (s : BeliefState) (t b : Address) :
    (alookup (update_reachable s t) b).services = (alookup s b).services := by
  unfold update_reachable
  split
  · exact alookup_map_proj (fun r => r.services)
      (fun r => { r with reachable := true }) s b (fun _ => rfl)
  · rfl

theorem update_reachable_compromised (s : BeliefState) (t b : Address) :
    (alookup (update_reachable s t) b).compromised = (alookup s b).compromised := by
  unfold update_reachable
  split
  · exact alookup_map_proj (fun r => r.compromised)
      (fun r => { r with reachable := true }) s b (fun _ => rfl)
  · rfl

theorem step_mono_fields (e : Engine) (a : CAAction) (b : Address) :
    ((alookup e.current_state b).reachable = true →
      (alookup (step e a).engine.current_state b).reachable = true) ∧
    ((alookup e.current_state b).compromised = true →
      (alookup (step e a).engine.current_state b).compromised = true) := by
  by_cases hg : (!(alookup e.current_state a.target).reachable ||
      (alookup e.current_state a.target).compromised) = true
  · rw [step_gate e a hg]
    exact ⟨id, id⟩
  · have hreach : (alookup e.current_state a.target).reachable = true := by
      revert hg
      cases (alookup e.current_state a.target).reachable <;> simp
    have hcomp : (alookup e.current_state a.target).compromised = false := by
      revert hg
      cases (alookup e.current_state a.target).compromised <;> simp
    rw [step_open e a hreach hcomp]
    cases hsucc : (take_action e.network a).1 with
    | false =>
      simp only [update_state_fail]
      refine ⟨fun h => ?_, fun h => ?_⟩
      · exact (alookup_aupdate_proj (fun (r : BeliefRecord) => r.reachable) e.current_state
          a.target
          (fun (r : BeliefRecord) => { r with services := r.services.set (a.action - 1) ABSENT })
          b (fun _ => rfl)).trans h
      · exact (alookup_aupdate_proj (fun (r : BeliefRecord) => r.compromised) e.current_state
          a.target
          (fun (r : BeliefRecord) => { r with services := r.services.set (a.action - 1) ABSENT })
          b (fun _ => rfl)).trans h
    | true =>
      by_cases hact : a.action = 0
      · simp only [update_state_scan _ _ _ hact]
        refine ⟨fun h => ?_, fun h => ?_⟩
        · exact (alookup_aupdate_proj (fun (r : BeliefRecord) => r.reachable) e.current_state
            a.target
            (fun (r : BeliefRecord) => { r with
              services := overwriteServices r.services (take_action e.network a).2.2 })
            b (fun _ => rfl)).trans h
        · exact (alookup_aupdate_proj (fun (r : BeliefRecord) => r.compromised) e.current_state
            a.target
            (fun (r : BeliefRecord) => { r with
              services := overwriteServices r.services (take_action e.network a).2.2 })
            b (fun _ => rfl)).trans h
      · simp only [update_state_exploit _ _ _ hact]
        refine ⟨fun h => ?_, fun h => ?_⟩
        · apply update_reachable_reachable_mono
          exact (alookup_aupdate_proj (fun (r : BeliefRecord) => r.reachable) _ a.target
            (fun (r : BeliefRecord) => { r with compromised := true }) b (fun _ => rfl)).trans
            ((alookup_aupdate_proj (fun (r : BeliefRecord) => r.reachable) e.current_state
              a.target
              (fun (r : BeliefRecord) => { r with
              services := overwriteServices r.services (take_action e.network a).2.2 })
              b (fun _ => rfl)).trans h)
        · rw [update_reachable_compromised]
          exact alookup_aupdate_mono (fun (r : BeliefRecord) => r.compromised) _ a.target
            (fun (r : BeliefRecord) => { r with compromised := true }) b (fun _ _ => rfl)
            ((alookup_aupdate_proj (fun (r : BeliefRecord) => r.compromised) e.current_state
              a.target
              (fun (r : BeliefRecord) => { r with
              services := overwriteServices r.services (take_action e.network a).2.2 })
              b (fun _ => rfl)).trans h)

theorem stepH_open (e : EngineH) (a : CAAction)
    (h : (!(alookup (curState e) a.target).reachable ||
        (alookup (curState e) a.target).compromised) = false) :
    stepH e a =
      ⟨{ e with heap := (e.heap.set e.cur (update_state (curState e) a
            (take_action e.network a).1 (take_action e.network a).2.2)) ++
          [update_state (curState e) a (take_action e.network a).1
            (take_action e.network a).2.2] },
       (e.heap.set e.cur (update_state (curState e) a
         (take_action e.network a).1 (take_action e.network a).2.2)).length,
       (take_action e.network a).2.1 -
         (if a.action = SCAN then COST_SCAN else COST_EXPLOIT),
       is_goal e.sensitive_machines (update_state (curState e) a
         (take_action e.network a).1 (take_action e.network a).2.2)⟩ := by
  unfold stepH
  simp only [h, Bool.false_eq_true, if_false]

/-! ### Claim theorems -/

/-- Claim C2: for every action whose target is unreachable or already
compromised in the current belief state, `step` performs no mutation of the
belief state, returns reward exactly `-COST_SCAN = -10` for kind 0 and
`-COST_EXPLOIT = -10` for kind `> 0`, `done = false`, and an empty info map;
the gate is an ordinary return, not an error path. -/
theorem C2_soft_fail (e : Engine) (a : CAAction)
    (_hmem : a.target ∈ e.current_state.map Prod.fst)
    (h : (alookup e.current_state a.target).reachable = false ∨
         (alookup e.current_state a.target).compromised = true) :
    (step e a).engine = e ∧
    (step e a).obs = e.current_state ∧
    (step e a).reward = (if a.action = 0 then -COST_SCAN else -COST_EXPLOIT) ∧
    (step e a).reward = -10 ∧
    (step e a).done = false ∧
    (step e a).info = [] := by
  have hg : (!(alookup e.current_state a.target).reachable ||
      (alookup e.current_state a.target).compromised) = true := by
    rcases h with h | h <;> simp [h]
  rw [step_gate e a hg]
  refine ⟨rfl, rfl, ?_, ?_, rfl, rfl⟩
  · by_cases ha : a.action = 0 <;>
      simp [ha, SCAN, COST_SCAN, COST_EXPLOIT]
  · by_cases ha : a.action = 0 <;>
      simp [ha, SCAN, COST_SCAN, COST_EXPLOIT]

/-- Witness for C2: scanning the unreachable machine `(1, 0)` of the fresh
`nM = 4, nS = 1` engine leaves the engine unchanged and costs 10. -/
theorem C2_soft_fail_witness :
    ((1, 0) : Address) ∈ E41.current_state.map Prod.fst ∧
    (alookup E41.current_state (1, 0)).reachable = false ∧
    (step E41 ⟨(1, 0), 0⟩).reward = -10 ∧
    (step E41 ⟨(1, 0), 0⟩).engine = E41 :=
  ⟨by decide, by decide,
   (C2_soft_fail E41 ⟨(1, 0), 0⟩ (by decide) (Or.inl (by decide))).2.2.2.1,
   (C2_soft_fail E41 ⟨(1, 0), 0⟩ (by decide) (Or.inl (by decide))).1⟩

/-- Claim C6: within one episode `reachable` and `compromised` are monotone
non-decreasing per machine: running any sequence of `step` calls maps `true`
to `true` for both belief fields at every address. -/
theorem C6_monotone_fields (e : Engine) (acts : List CAAction) (b : Address) :
    ((alookup e.current_state b).reachable = true →
      (alookup (runActs e acts).current_state b).reachable = true) ∧
    ((alookup e.current_state b).compromised = true →
      (alookup (runActs e acts).current_state b).compromised = true) := by
  induction acts generalizing e with
  | nil => exact ⟨id, id⟩
  | cons a rest ih =>
    refine ⟨fun h => ?_, fun h => ?_⟩
    · exact (ih (step e a).engine).1 ((step_mono_fields e a b).1 h)
    · exact (ih (step e a).engine).2 ((step_mono_fields e a b).2 h)

/-- Witness for C6: machine `(0, 0)` starts reachable and is still reachable
after two exploit steps. -/
theorem C6_monotone_fields_witness :
    (alookup E41.current_state (0, 0)).reachable = true ∧
    (alookup (runActs E41 [exploit1 (0, 0), exploit1 (1, 0)]).current_state
      (0, 0)).reachable = true :=
  ⟨by decide,
   (C6_monotone_fields E41 [exploit1 (0, 0), exploit1 (1, 0)] (0, 0)).1 (by decide)⟩

/-- Claim C9: engine construction and the step dynamics are deterministic:
the constructor re-seeds the global generator (`np.random.seed(1)`), so two
engines built with the same `(nM, nS)` — the seed is the literal `1`, hence
a fortiori the same `(nM, nS, seed)` — are identical regardless of the
ambient generator states `g0`, `g1`, carry bit-identical ground-truth
networks and goal sets, and produce identical `(reward, done)` sequences on
every identical action sequence. -/
theorem C9_seed_determinism (rng : RNG) (nM nS g0 g1 : Nat)
    (acts : List CAAction) :
    mkEngine rng nM nS g0 = mkEngine rng nM nS g1 ∧
    (mkEngine rng nM nS g0).network = (mkEngine rng nM nS g1).network ∧
    (mkEngine rng nM nS g0).sensitive_machines =
      (mkEngine rng nM nS g1).sensitive_machines ∧
    stepTrace (mkEngine rng nM nS g0) acts =
      stepTrace (mkEngine rng nM nS g1) acts :=
  ⟨rfl, rfl, rfl, rfl⟩

/-- Claim C10 (code bug): `AddressSpace.contains` is not total.  For
`nM = 3` the space is `[(0,0), (1,0), (2,0)]`; on the non-member `(3, 0)`
(and likewise on the beyond-range id `(2, 1)`) `bisect_left` returns
`len(space)` and the subscript `self.space[...]` raises `IndexError`
(modelled as `none`) instead of returning `False`; members and smaller
non-members are answered correctly. -/
theorem C10_contains_raises :
    contains (generate_address_space 3) (.tupleOf [3, 0]) = none ∧
    ((3, 0) : Address) ∉ generate_address_space 3 ∧
    bisect_left (generate_address_space 3) (3, 0) =
      (generate_address_space 3).length ∧
    contains (generate_address_space 3) (.tupleOf [2, 1]) = none ∧
    contains (generate_address_space 3) (.tupleOf [1, 0]) = some true ∧
    contains (generate_address_space 3) (.listOf [1, 0]) = some true ∧
    contains (generate_address_space 3) (.tupleOf [0, 5]) = some false ∧
    contains (generate_address_space 3) (.tupleOf [1, 0, 2]) = some false ∧
    contains (generate_address_space 3) .other = some false := by
  decide

/-- Claim C1 counterexample: the value returned by `reset()` is not an
independent copy but the engine's own belief-state object.  On the concrete
`nM = 4, nS = 1` engine: the location `reset` returns is exactly the location
the engine's `self.current_state` points to; overwriting the returned object
(here: with the empty state) changes the engine's internal state; and the
snapshot retained from `reset` is observably changed by a later mutating
`step` call. -/
theorem C1_deep_copy_counterexample :
    (resetH E41H).2 = (resetH E41H).1.cur ∧
    curState (mutateAt (resetH E41H).1 (resetH E41H).2 []) ≠
      curState (resetH E41H).1 ∧
    (stepH (resetH E41H).1 (exploit1 (0, 0))).engine.heap.getD
        (resetH E41H).2 [] ≠
      (resetH E41H).1.heap.getD (resetH E41H).2 [] := by
  decide

/-- Claim C1 (amended): only the mutating branch of `step()` returns a
structurally independent deep copy of the belief state; `reset()` and the
precondition-gate branch of `step()` return the engine's internal
belief-state object itself (an alias), so mutating those returned values
mutates the engine state and snapshots retained from them change under later
`step` calls.  Formally: `reset` returns the engine's own location; a gated
`step` returns the engine's location and leaves the engine untouched; a
non-gated `step` returns a fresh location distinct from the engine's, and
overwriting the object there leaves the engine's internal state unchanged. -/
theorem C1_snapshot_aliasing (e : EngineH) (a : CAAction)
    (hwf : e.cur < e.heap.length) :
    ((resetH e).2 = (resetH e).1.cur) ∧
    ((!(alookup (curState e) a.target).reachable ||
        (alookup (curState e) a.target).compromised) = true →
      (stepH e a).obs = (stepH e a).engine.cur ∧ (stepH e a).engine = e) ∧
    ((!(alookup (curState e) a.target).reachable ||
        (alookup (curState e) a.target).compromised) = false →
      (stepH e a).obs ≠ (stepH e a).engine.cur ∧
      ∀ v, curState (mutateAt (stepH e a).engine (stepH e a).obs v) =
           curState (stepH e a).engine) := by
  refine ⟨rfl, fun h => ?_, fun h => ?_⟩
  · unfold stepH
    simp only [h, if_true]
    exact ⟨by trivial, by trivial⟩
  · rw [stepH_open e a h]
    constructor
    · simp only [List.length_set]
      omega
    · intro v
      unfold mutateAt curState
      simp only [List.length_set]
      exact getD_set_ne _ _ _ _ _ (by omega)

/-- Witness for C1: on the fresh `nM = 4, nS = 1` aliasing-level engine,
stepping the unreachable target `(1, 0)` takes the gate and hands back the
engine's own belief-state object. -/
theorem C1_snapshot_aliasing_witness :
    E41H.cur < E41H.heap.length ∧
    (!(alookup (curState E41H) (1, 0)).reachable ||
      (alookup (curState E41H) (1, 0)).compromised) = true ∧
    (stepH E41H (exploit1 (1, 0))).obs = (stepH E41H (exploit1 (1, 0))).engine.cur :=
  ⟨by decide, by decide,
   ((C1_snapshot_aliasing E41H (exploit1 (1, 0)) (by decide)).2.1 (by decide)).1⟩

/-- Claim C3: for every action of kind `k > 0` on a reachable, uncompromised
target, the exploit succeeds iff the target's true service vector holds
`true` at index `k - 1`; the step's reward is the machine's value minus
`COST_EXPLOIT` on success and `-COST_EXPLOIT` on failure; and in the concrete
`nM = 4, nS = 1` engine, exploiting `(0, 0)` and then `(1, 0)` yields reward
`8990` (`= R_SENSITIVE - COST_EXPLOIT`) on the second step. -/
theorem C3_exploit_success_reward :
    (∀ (e : Engine) (a : CAAction) (k : Nat),
      a.action = k → 0 < k →
      (alookup e.current_state a.target).reachable = true →
      (alookup e.current_state a.target).compromised = false →
      k - 1 < (alookup e.network a.target).services.length →
      ((take_action e.network a).1 =
        (alookup e.network a.target).services.getD (k - 1) false ∧
       (step e a).reward =
        (if (alookup e.network a.target).services.getD (k - 1) false
         then (alookup e.network a.target).value - COST_EXPLOIT
         else -COST_EXPLOIT))) ∧
    stepTrace E41 [exploit1 (0, 0), exploit1 (1, 0)] =
      [(-10, false), (8990, false)] := by
  constructor
  · intro e a k hk hkpos hreach hcomp _hlen
    subst hk
    have hne : a.action ≠ 0 := by omega
    rw [step_open e a hreach hcomp]
    rw [take_action_exploit e.network a hne]
    by_cases hsvc :
        (alookup e.network a.target).services.getD (a.action - 1) false
    · have hsvc' : (alookup e.network a.target).services[a.action - 1]?.getD
          false = true := by simpa [List.getD] using hsvc
      simp [hsvc', SCAN, hne, List.getD]
    · have hsvc' : (alookup e.network a.target).services[a.action - 1]?.getD
          false = false := by simpa using hsvc
      simp [hsvc', SCAN, hne, COST_EXPLOIT, List.getD]
  · decide

/-- Witness for C3: applying the general part after compromising `(0, 0)`
shows the second exploit's reward is exactly `8990`. -/
theorem C3_exploit_success_reward_witness :
    (0 : Nat) < 1 ∧
    (alookup (step E41 (exploit1 (0, 0))).engine.current_state (1, 0)).reachable
      = true ∧
    (step (step E41 (exploit1 (0, 0))).engine (exploit1 (1, 0))).reward = 8990 := by
  refine ⟨by decide, by decide, ?_⟩
  have h := (C3_exploit_success_reward.1 (step E41 (exploit1 (0, 0))).engine
    (exploit1 (1, 0)) 1 rfl (by decide) (by decide) (by decide) (by decide)).2
  rw [h]
  decide

/-- Claim C5: after a successful exploit of a subnet-0 target every machine
in the belief state becomes reachable in that single step, and a successful
exploit of a subnet-1 or subnet-2 target changes no machine's `reachable`
field. -/
theorem C5_reachability_propagation (e : Engine) (a : CAAction)
    (hreach : (alookup e.current_state a.target).reachable = true)
    (hcomp : (alookup e.current_state a.target).compromised = false)
    (hexp : a.action ≠ 0)
    (hsucc : (take_action e.network a).1 = true) :
    (a.target.1 = 0 →
      ∀ p ∈ (step e a).engine.current_state, p.2.reachable = true) ∧
    ((a.target.1 = 1 ∨ a.target.1 = 2) →
      ∀ c : Address,
        (alookup (step e a).engine.current_state c).reachable =
          (alookup e.current_state c).reachable) := by
  rw [step_open e a hreach hcomp, hsucc, update_state_exploit _ _ _ hexp]
  constructor
  · intro h0 p hp
    unfold update_reachable at hp
    rw [if_pos h0] at hp
    rcases List.mem_map.1 hp with ⟨q, _, rfl⟩
    rfl
  · intro h12 c
    have h0 : a.target.1 ≠ 0 := by rcases h12 with h | h <;> omega
    unfold update_reachable
    rw [if_neg h0]
    exact (alookup_aupdate_proj (fun (r : BeliefRecord) => r.reachable) _
      a.target (fun (r : BeliefRecord) => { r with compromised := true }) c
      (fun _ => rfl)).trans
      (alookup_aupdate_proj (fun (r : BeliefRecord) => r.reachable)
        e.current_state a.target
        (fun (r : BeliefRecord) => { r with
          services := overwriteServices r.services (take_action e.network a).2.2 })
        c (fun _ => rfl))

/-- Witness for C5: exploiting the subnet-1 machine `(1, 0)` after `(0, 0)`
leaves the `reachable` field of `(2, 1)` unchanged. -/
theorem C5_reachability_propagation_witness :
    (alookup (step E41 (exploit1 (0, 0))).engine.current_state (1, 0)).reachable
      = true ∧
    (take_action (step E41 (exploit1 (0, 0))).engine.network
      (exploit1 (1, 0))).1 = true ∧
    (alookup (step (step E41 (exploit1 (0, 0))).engine
        (exploit1 (1, 0))).engine.current_state (2, 1)).reachable =
      (alookup (step E41 (exploit1 (0, 0))).engine.current_state (2, 1)).reachable :=
  ⟨by decide, by decide,
   (C5_reachability_propagation (step E41 (exploit1 (0, 0))).engine
     (exploit1 (1, 0)) (by decide) (by decide) (by decide) (by decide)).2
     (Or.inl rfl) (2, 1)⟩

/-- Claim C7: for every `nS > 0` the candidate configuration set is exactly
the `2 ^ nS - 1` boolean vectors of length `nS` other than the all-false
vector, and every machine of every generated network draws its true service
vector from that set, hence runs at least one service. -/
theorem C7_service_candidates (nS : Nat) (h : 1 ≤ nS) :
    (∀ v : List Bool, v ∈ configsList nS ↔
      (v.length = nS ∧ v ≠ List.replicate nS false)) ∧
    (configsList nS).length = 2 ^ nS - 1 ∧
    (∀ (rng : RNG) (nM g0 : Nat) (p : Address × Machine),
      p ∈ (construct_network rng nM nS g0).1 →
        p.2.services ∈ configsList nS ∧
        p.2.services ≠ List.replicate nS false) := by
  refine ⟨mem_configsList nS h, configsList_length nS h, ?_⟩
  intro rng nM g0 p hp
  have hmem : p.2.services ∈ configsList nS :=
    constructLoop_services rng (configsList nS) (configsList_pos nS h)
      (generate_address_space nM) (rng.seedFn 1) p hp
  exact ⟨hmem, ((mem_configsList nS h p.2.services).1 hmem).2⟩

/-- Witness for C7: the first machine of the `nM = 4, nS = 1` network drew
the configuration `[true]`, which is in the candidate set and not all-false. -/
theorem C7_service_candidates_witness :
    (1 : Nat) ≤ 1 ∧
    ([true] ∈ configsList 1 ∧ [true] ≠ List.replicate 1 false) :=
  ⟨by decide,
   (C7_service_candidates 1 (by decide)).2.2 rng0 4 0
     ((0, 0), ⟨[true], 0⟩) (by decide)⟩

/-- Claim C8 counterexample: the biconditional "step()'s done flag is true
iff every goal-set address is compromised" fails on the precondition-gate
path.  Concretely, with `nM = 4, nS = 1`: after exploiting `(0, 0)`, `(1, 0)`
and `(2, 0)` every goal machine (`(1, 0)` and `(2, 0)`) is compromised, yet
stepping the already-compromised `(1, 0)` again returns `done = false`. -/
theorem C8_done_iff_counterexample :
    E41.sensitive_machines = [(1, 0), (2, 0)] ∧
    (alookup (runActs E41 [exploit1 (0, 0), exploit1 (1, 0),
      exploit1 (2, 0)]).current_state (1, 0)).compromised = true ∧
    (alookup (runActs E41 [exploit1 (0, 0), exploit1 (1, 0),
      exploit1 (2, 0)]).current_state (2, 0)).compromised = true ∧
    (step (runActs E41 [exploit1 (0, 0), exploit1 (1, 0), exploit1 (2, 0)])
      (exploit1 (1, 0))).done = false := by
  decide

/-- Claim C8 (amended): the goal set is exactly the generated addresses whose
subnet-local id is a multiple of 10 and whose subnet is 1 or 2; `isGoal()` is
true iff every goal-set address is compromised in the current belief state;
on actions passing the precondition gate the step's done flag equals
`isGoal()` of the updated belief state, while on the gate path the done flag
is `false` regardless of `isGoal()`; and with `nM = 4, nS = 1`, exploiting
`(0, 0)`, `(1, 0)`, `(2, 0)` in sequence yields done flags
`false, false, true`. -/
theorem C8_goal_detection :
    (∀ (rng : RNG) (nM nS g0 : Nat),
      (construct_network rng nM nS g0).2.1 =
        (generate_address_space nM).filter
          (fun m => decide (m.2 % 10 = 0 ∧ (m.1 = 1 ∨ m.1 = 2)))) ∧
    (∀ (sm : List Address) (s : BeliefState),
      is_goal sm s = true ↔ ∀ m ∈ sm, (alookup s m).compromised = true) ∧
    (∀ (e : Engine) (a : CAAction),
      (alookup e.current_state a.target).reachable = true →
      (alookup e.current_state a.target).compromised = false →
      (step e a).done =
        is_goal e.sensitive_machines (step e a).engine.current_state) ∧
    (∀ (e : Engine) (a : CAAction),
      ((alookup e.current_state a.target).reachable = false ∨
        (alookup e.current_state a.target).compromised = true) →
      (step e a).done = false) ∧
    (stepTrace E41 [exploit1 (0, 0), exploit1 (1, 0), exploit1 (2, 0)]).map
      Prod.snd = [false, false, true] := by
  refine ⟨?_, ?_, ?_, ?_, by decide⟩
  · intro rng nM nS g0
    exact constructLoop_sens rng (configsList nS) (generate_address_space nM)
      (rng.seedFn 1)
  · intro sm s
    exact List.all_eq_true
  · intro e a hr hc
    rw [step_open e a hr hc]
  · intro e a h
    have hg : (!(alookup e.current_state a.target).reachable ||
        (alookup e.current_state a.target).compromised) = true := by
      rcases h with h | h <;> simp [h]
    rw [step_gate e a hg]

/-- Witness for C8: on the fresh engine the gate-free step at `(0, 0)` has
its done flag equal to `isGoal()` of the updated state. -/
theorem C8_goal_detection_witness :
    (alookup E41.current_state (0, 0)).reachable = true ∧
    (alookup E41.current_state (0, 0)).compromised = false ∧
    (step E41 (exploit1 (0, 0))).done =
      is_goal E41.sensitive_machines
        (step E41 (exploit1 (0, 0))).engine.current_state :=
  ⟨by decide, by decide,
   C8_goal_detection.2.2.1 E41 (exploit1 (0, 0)) (by decide) (by decide)⟩

/-- Claim C4: for actions passing the precondition gate, on a successful
scan or exploit the revealed vector is the target's full true service vector
and every belief index of the target is overwritten to Present/Absent
matching the truth; on a failed exploit of service `k - 1` only index `k - 1`
of the target's belief services is set to Absent — the target's other
indices, its other fields, and every other machine's belief record are
unchanged. -/
theorem C4_belief_revision (e : Engine) (a : CAAction)
    (hreach : (alookup e.current_state a.target).reachable = true)
    (hcomp : (alookup e.current_state a.target).compromised = false) :
    ((take_action e.network a).1 = true →
      (take_action e.network a).2.2 = (alookup e.network a.target).services ∧
      ∀ i, i < (alookup e.network a.target).services.length →
        i < (alookup e.current_state a.target).services.length →
        (alookup (step e a).engine.current_state a.target).services.getD i
            UNKNOWN =
          (if (alookup e.network a.target).services.getD i false
           then PRESENT else ABSENT)) ∧
    ((take_action e.network a).1 = false →
      alookup (step e a).engine.current_state a.target =
        { alookup e.current_state a.target with
            services :=
              ((alookup e.current_state a.target).services.set
                (a.action - 1) ABSENT) } ∧
      (∀ i, i ≠ a.action - 1 →
        (alookup (step e a).engine.current_state a.target).services.getD i
            UNKNOWN =
          (alookup e.current_state a.target).services.getD i UNKNOWN) ∧
      (∀ c : Address, c ≠ a.target →
        alookup (step e a).engine.current_state c =
          alookup e.current_state c)) := by
  have hmem : a.target ∈ e.current_state.map Prod.fst :=
    mem_of_reachable _ _ hreach
  constructor
  · intro hsucc
    have hrev : (take_action e.network a).2.2 =
        (alookup e.network a.target).services := by
      by_cases ha : a.action = 0
      · rw [take_action_scan e.network a ha]
      · rw [take_action_exploit e.network a ha] at hsucc ⊢
        by_cases hsvc :
            (alookup e.network a.target).services.getD (a.action - 1) false
        · have hsvc' : (alookup e.network a.target).services[a.action - 1]?.getD
              false = true := by simpa [List.getD] using hsvc
          simp [hsvc', List.getD]
        · rw [if_neg] at hsucc
          · exact absurd hsucc (by decide)
          · simpa using hsvc
    have hstate : (step e a).engine.current_state =
        update_state e.current_state a true
          (alookup e.network a.target).services := by
      rw [step_open e a hreach hcomp, hsucc, hrev]
    refine ⟨hrev, ?_⟩
    intro i hi1 hi2
    rw [hstate]
    by_cases ha : a.action = 0
    · rw [update_state_scan _ _ _ ha,
        alookup_aupdate_self e.current_state a.target _ hmem]
      exact overwriteServices_getD _ _ i hi1 hi2
    · rw [update_state_exploit _ _ _ ha, update_reachable_services]
      have h1 : (alookup (aupdate (aupdate e.current_state a.target
            (fun r => { r with services :=
              overwriteServices r.services (alookup e.network a.target).services }))
            a.target (fun r => { r with compromised := true }))
            a.target).services =
          (alookup (aupdate e.current_state a.target
            (fun r => { r with services :=
              overwriteServices r.services (alookup e.network a.target).services }))
            a.target).services :=
        alookup_aupdate_proj (fun (r : BeliefRecord) => r.services) _ a.target
          (fun r => { r with compromised := true }) a.target (fun _ => rfl)
      rw [h1, alookup_aupdate_self e.current_state a.target _ hmem]
      exact overwriteServices_getD _ _ i hi1 hi2
  · intro hfail
    have hstate : (step e a).engine.current_state =
        aupdate e.current_state a.target
          (fun r => { r with
            services := r.services.set (a.action - 1) ABSENT }) := by
      rw [step_open e a hreach hcomp, hfail, update_state_fail]
    have hself : alookup (aupdate e.current_state a.target
        (fun r => { r with
          services := r.services.set (a.action - 1) ABSENT })) a.target =
        { alookup e.current_state a.target with
            services :=
              ((alookup e.current_state a.target).services.set
                (a.action - 1) ABSENT) } :=
      alookup_aupdate_self e.current_state a.target _ hmem
    rw [hstate]
    refine ⟨hself, ?_, ?_⟩
    · intro i hi
      rw [hself]
      exact getD_set_ne _ _ _ _ _ (Ne.symm hi)
    · intro c hc
      exact alookup_aupdate_ne e.current_state a.target _ c hc

/-- Witness for C4: in the `nM = 4, nS = 2` engine the exploit of service 0
on `(0, 0)` fails (its true vector is `[false, true]`), and the belief record
of the untouched machine `(2, 1)` is unchanged by that step. -/
theorem C4_belief_revision_witness :
    (alookup E42.current_state (0, 0)).reachable = true ∧
    (take_action E42.network ⟨(0, 0), 1⟩).1 = false ∧
    alookup (step E42 ⟨(0, 0), 1⟩).engine.current_state (2, 1) =
      alookup E42.current_state (2, 1) :=
  ⟨by decide, by decide,
   ((C4_belief_revision E42 ⟨(0, 0), 1⟩ (by decide) (by decide)).2
     (by decide)).2.2 (2, 1) (by decide)⟩

end CyberAttack
